import Mathlib

/-!
Verification of the cart/catalog/checkout logic of a React e-commerce
storefront (Redux Toolkit cart slice, product catalog sort/filter,
simulated checkout, browser-storage helpers).

JavaScript numbers are modelled as exact rationals (`ℚ`) for prices and
as integers (`Int`) for ids and quantities.  Browser local/session
storage is modelled value-level where a claim only needs the stored
value, and string-level with an abstract `JSON.parse` oracle where a
claim is about malformed JSON.  `Array.prototype.sort` (stable since
ES2019) is modelled by `List.mergeSort` over the comparator's
"comparator result ≤ 0" relation.
-/

namespace Storefront

/-- Nested rating object of a product (`rating: { rate, count }`). -/
structure Rating where
  rate : ℚ
  count : Int
deriving DecidableEq

/-- Product record as fetched from FakeStoreAPI (`Product` interface). -/
structure Product where
  id : Int
  title : String
  price : ℚ
  description : String
  category : String
  image : String
  rating : Rating
deriving DecidableEq

/-- Item stored in the cart: a product spread together with a quantity
(`interface CartItem extends Product { quantity }`). -/
structure CartItem where
  id : Int
  title : String
  price : ℚ
  description : String
  category : String
  image : String
  rating : Rating
  quantity : Int
deriving DecidableEq

/-- The JS spread `{ ...itemToAdd, quantity }` building a cart item from a
product. -/
def mkCartItem (p : Product) (quantity : Int) : CartItem :=
  { id := p.id, title := p.title, price := p.price, description := p.description,
    category := p.category, image := p.image, rating := p.rating, quantity := quantity }

/-- Shape of the Redux cart slice state (`interface CartState`). -/
structure CartState where
  items : List CartItem
  totalItems : Int
  totalPrice : ℚ
deriving DecidableEq

/-- The cart slice's `initialState`. -/
def initialState : CartState :=
  { items := [], totalItems := 0, totalPrice := 0 }

/-- Mutation `state.items[existingItemIndex].quantity += 1` applied to one item. -/
def incrementQuantity (item : CartItem) : CartItem :=
  { item with quantity := item.quantity + 1 }

/-- Reducer `addToCart` of the cart slice: find the payload's id in the
items array; if found increment that item's quantity, otherwise push the
payload with quantity 1; then `totalItems += 1` and
`totalPrice += itemToAdd.price`. -/
def addToCart (state : CartState) (itemToAdd : Product) : CartState :=
  let existingItemIndex := state.items.findIdx? (fun item => item.id == itemToAdd.id)
  let items' :=
    match existingItemIndex with
    | some i => state.items.modify incrementQuantity i
    | none => state.items ++ [mkCartItem itemToAdd 1]
  { items := items',
    totalItems := state.totalItems + 1,
    totalPrice := state.totalPrice + itemToAdd.price }

/-- Reducer `removeFromCart`: find the id; if present, subtract the found
item's quantity from `totalItems` and its `price * quantity` from
`totalPrice`, and splice the item out of the array; otherwise no change.
The inner `none` branch is unreachable (the index returned by a successful
`findIndex` is always in bounds). -/
def removeFromCart (state : CartState) (itemIdToRemove : Int) : CartState :=
  match state.items.findIdx? (fun item => item.id == itemIdToRemove) with
  | some itemIndex =>
    match state.items[itemIndex]? with
    | some itemToRemove =>
      { items := state.items.eraseIdx itemIndex,
        totalItems := state.totalItems - itemToRemove.quantity,
        totalPrice := state.totalPrice - itemToRemove.price * (itemToRemove.quantity : ℚ) }
    | none => state
  | none => state

/-- Reducer `updateQuantity`: only when the id is found and the new
quantity is `> 0`, adjust the totals by the quantity difference and set
the item's quantity.  The inner `none` branch is unreachable. -/
def updateQuantity (state : CartState) (itemId : Int) (quantity : Int) : CartState :=
  match state.items.findIdx? (fun item => item.id == itemId) with
  | some itemIndex =>
    match state.items[itemIndex]? with
    | some itemToUpdate =>
      if quantity > 0 then
        let quantityDifference := quantity - itemToUpdate.quantity
        { items := state.items.modify (fun item => { item with quantity := quantity }) itemIndex,
          totalItems := state.totalItems + quantityDifference,
          totalPrice := state.totalPrice + (quantityDifference : ℚ) * itemToUpdate.price }
      else state
    | none => state
  | none => state

/-- Reducer `clearCart`: reset the three fields to their initial values. -/
def clearCart (_state : CartState) : CartState :=
  { items := [], totalItems := 0, totalPrice := 0 }

/-- Actions the cart slice reacts to. -/
inductive CartAction
  | add (payload : Product)
  | remove (itemId : Int)
  | update (itemId : Int) (quantity : Int)
  | clear
deriving DecidableEq

/-- One reducer step of the cart slice. -/
def cartReduce (state : CartState) (action : CartAction) : CartState :=
  match action with
  | .add p => addToCart state p
  | .remove i => removeFromCart state i
  | .update i q => updateQuantity state i q
  | .clear => clearCart state

/-- The cart state reached from the initial empty cart by a sequence of
dispatched actions. -/
def runActions (actions : List CartAction) : CartState :=
  actions.foldl cartReduce initialState

/-- Sum of the quantities of the items of a cart. -/
def itemsQuantitySum (items : List CartItem) : Int :=
  (items.map (fun item => item.quantity)).sum

/-- Sum over the items of `price * quantity`. -/
def itemsPriceSum (items : List CartItem) : ℚ :=
  (items.map (fun item => item.price * (item.quantity : ℚ))).sum

/-- Arithmetic-consistency invariant of a cart state: the denormalised
totals agree with the items array. -/
def cartInvariant (state : CartState) : Prop :=
  state.totalItems = itemsQuantitySum state.items ∧
  state.totalPrice = itemsPriceSum state.items

/-- Payload discipline of the running app: every product id carries a
single price, given by a pricing function. -/
def pricedBy (priceOf : Int → ℚ) (a : CartAction) : Prop :=
  ∀ p : Product, a = .add p → p.price = priceOf p.id

/-- All items of a cart state carry the price assigned to their id. -/
def itemsPricedBy (priceOf : Int → ℚ) (state : CartState) : Prop :=
  ∀ item ∈ state.items, item.price = priceOf item.id

/-! ### Product catalog: client-side sort and filter (`ProductCatalog`) -/

/-- The values of the catalog's sort `<select>`. -/
inductive SortOption
  | default
  | priceLowToHigh
  | priceHighToLow
  | rating
deriving DecidableEq

/-- JavaScript `Array.prototype.sort` with a numeric comparator: a stable
sort that puts `a` before `b` whenever `cmp a b ≤ 0`. -/
def jsStableSortBy (cmp : Product → Product → ℚ) (l : List Product) : List Product :=
  l.mergeSort (fun a b => decide (cmp a b ≤ 0))

/-- The catalog's `sortedProducts` memo: switch on the sort option and
sort a copy of the fetched array with the respective comparator; the
`default` branch returns the array as fetched.  The `rating` comparator
is transcribed verbatim from the source: `b.rating.rate - b.rating.rate`. -/
def sortedProducts (products : List Product) (sortOption : SortOption) : List Product :=
  match sortOption with
  | .priceLowToHigh => jsStableSortBy (fun a b => a.price - b.price) products
  | .priceHighToLow => jsStableSortBy (fun a b => b.price - a.price) products
  | .rating => jsStableSortBy (fun a b => b.rating.rate - b.rating.rate) products
  | .default => products

/-- Characters of a string lowercased (`s.toLowerCase()` viewed as its
character list). -/
def lowerChars (s : String) : List Char :=
  s.data.map Char.toLower

/-- The catalog's `filteredProducts` memo: filter by category when one is
selected (a non-empty value other than `'all'`), then, when the search
query is non-empty, keep products whose lowercased title or description
includes the lowercased query.  The `product.title &&` /
`product.description &&` truthiness guards of the source are kept. -/
def filteredProducts (sorted : List Product) (searchQuery selectedCategory : String) :
    List Product :=
  let categoryFilteredProducts :=
    if selectedCategory ≠ "" ∧ selectedCategory ≠ "all" then
      sorted.filter (fun product => product.category == selectedCategory)
    else
      sorted
  if searchQuery = "" then
    categoryFilteredProducts
  else
    let lowerCaseQuery := lowerChars searchQuery
    categoryFilteredProducts.filter (fun product =>
      let titleMatch :=
        product.title != "" && decide (lowerCaseQuery <:+: lowerChars product.title)
      let descriptionMatch :=
        product.description != "" && decide (lowerCaseQuery <:+: lowerChars product.description)
      titleMatch || descriptionMatch)

/-- Modelled from the claim's wording, for comparison with
`filteredProducts`: keep exactly the products whose category equals the
selected one (when a category other than `'all'` or the empty string is
selected) and whose title or description contains the query
case-insensitively (when the query is non-empty). -/
def keepsProduct (searchQuery selectedCategory : String) (product : Product) : Bool :=
  (selectedCategory == "" || selectedCategory == "all" ||
      product.category == selectedCategory) &&
  (searchQuery == "" || decide (lowerChars searchQuery <:+: lowerChars product.title) ||
      decide (lowerChars searchQuery <:+: lowerChars product.description))

/-! ### Orders and the simulated checkout (`ShoppingCart.tsx`, `types/Order.ts`,
`utils/localStorageHelpers.ts`) -/

/-- One line item of a persisted order (`Order['items']` element). -/
structure OrderLineItem where
  productId : String
  quantity : Int
  price : ℚ
deriving DecidableEq

/-- Persisted order record (`interface Order` of `types/Order.ts`). -/
structure Order where
  id : String
  date : String
  items : List OrderLineItem
  totalAmount : ℚ
  orderId : Option String
  dateCreated : Option String
  totalPrice : Option ℚ
deriving DecidableEq

/-- `calculateTotal` of `ShoppingCart`: reduce over the cart items summing
`price * quantity` starting from 0. -/
def calculateTotal (cartItems : List CartItem) : ℚ :=
  cartItems.foldl (fun total item => total + item.price * (item.quantity : ℚ)) 0

/-- `saveOrderToLocalStorage` of `utils/localStorageHelpers.ts`, at the
level of the stored order list: read the existing orders, push the new
one, write the list back. -/
def saveOrderToLocalStorage (orders : List Order) (newOrder : Order) : List Order :=
  orders ++ [newOrder]

/-- Result of the checkout flow: the order list persisted under
`orderHistory` and the Redux cart state after the dispatches. -/
structure CheckoutResult where
  orders : List Order
  cart : CartState
deriving DecidableEq

/-- `handleCheckout` of `ShoppingCart.tsx`: when the cart is non-empty,
build a new order from the cart (line items `{ productId: id.toString(),
quantity, price }`, totals from `calculateTotal`), append it to the
stored order history, and dispatch `clearCart`; otherwise only an alert
is shown and nothing changes.  `Date.now()`-derived order id and ISO date
are taken as parameters. -/
def handleCheckout (state : CartState) (storedOrders : List Order)
    (orderId orderDate : String) : CheckoutResult :=
  if state.items.length > 0 then
    let orderTotal := calculateTotal state.items
    let orderItems := state.items.map (fun item =>
      OrderLineItem.mk (toString item.id) item.quantity item.price)
    let newOrder : Order :=
      { id := orderId, date := orderDate, items := orderItems,
        totalAmount := orderTotal, orderId := some orderId,
        dateCreated := some orderDate, totalPrice := some orderTotal }
    { orders := saveOrderToLocalStorage storedOrders newOrder, cart := clearCart state }
  else
    { orders := storedOrders, cart := state }

/-! ### Browser-storage reads and malformed JSON (`localStorageHelpers.ts`,
`OrderHistory`, `ProductCatalog`, `Login`, `ShoppingCart.tsx`) -/

/-- An abstract `JSON.parse` for values of type `α`: `none` means the
string is malformed JSON (or not of the expected shape) and `JSON.parse`
throws. -/
def ParseFn (α : Type) : Type := String → Option α

/-- Outcome of one storage read: either a value or a propagated exception,
together with whether the reading code removed the key from storage. -/
structure ReadOutcome (α : Type) where
  result : Except Unit α
  keyRemoved : Bool

/-- `getOrdersFromLocalStorage` of `utils/localStorageHelpers.ts`: parse
the `orderHistory` string inside `try`; on a parse error log and return
`[]`.  The key is never removed. -/
def getOrdersFromLocalStorage (stored : Option String) (parse : ParseFn (List Order)) :
    ReadOutcome (List Order) :=
  match stored with
  | none => { result := .ok [], keyRemoved := false }
  | some s =>
    match parse s with
    | some orders => { result := .ok orders, keyRemoved := false }
    | none => { result := .ok [], keyRemoved := false }

/-- The `OrderHistory` component's own `getOrdersFromLocalStorage`: it
calls `JSON.parse` with no `try`/`catch`, so a parse error propagates. -/
def orderHistoryGetOrders (stored : Option String) (parse : ParseFn (List Order)) :
    ReadOutcome (List Order) :=
  match stored with
  | none => { result := .ok [], keyRemoved := false }
  | some s =>
    match parse s with
    | some orders => { result := .ok orders, keyRemoved := false }
    | none => { result := .error (), keyRemoved := false }

/-- `getCategoriesFromLocalStorage` of `ProductCatalog`: `JSON.parse` of
the `productCategories` string with no `try`/`catch`; a parse error
propagates. -/
def getCategoriesFromLocalStorage (stored : Option String) (parse : ParseFn (List String)) :
    ReadOutcome (List String) :=
  match stored with
  | none => { result := .ok [], keyRemoved := false }
  | some s =>
    match parse s with
    | some categories => { result := .ok categories, keyRemoved := false }
    | none => { result := .error (), keyRemoved := false }

/-- `getCartFromSessionStorage` of `ShoppingCart.tsx`: parse the
`shoppingCart` string inside `try`; on a parse error log and return `[]`.
The key is never removed. -/
def getCartFromSessionStorage (stored : Option String) (parse : ParseFn (List CartItem)) :
    ReadOutcome (List CartItem) :=
  match stored with
  | none => { result := .ok [], keyRemoved := false }
  | some s =>
    match parse s with
    | some cart => { result := .ok cart, keyRemoved := false }
    | none => { result := .ok [], keyRemoved := false }

/-- Simulated user session (`interface UserState` / `interface User`). -/
structure UserState where
  name : String
  isLoggedIn : Bool
deriving DecidableEq

/-- The `Login` component's `useEffect` restore of `userSession`: parse
inside `try`; on success the parsed session becomes the user state; on a
parse error the corrupted key is removed (`localStorage.removeItem`) and
no user state is set. -/
def loginRestoreSession (stored : Option String) (parse : ParseFn UserState) :
    ReadOutcome (Option UserState) :=
  match stored with
  | none => { result := .ok none, keyRemoved := false }
  | some s =>
    match parse s with
    | some userSession => { result := .ok (some userSession), keyRemoved := false }
    | none => { result := .ok none, keyRemoved := true }

/-! ### Login submit (`Login.handleLogin`) -/

/-- Navigation target after login. -/
inductive Route
  | addProduct
  | home
deriving DecidableEq

/-- Local storage restricted to the `userSession` key's value type,
value-level (serialization is the identity on well-formed sessions). -/
def SessionStore : Type := String → Option UserState

/-- `localStorage.setItem` on a value-level store. -/
def setItem (store : SessionStore) (key : String) (value : UserState) : SessionStore :=
  fun k => if k = key then some value else store k

/-- Everything `handleLogin` produces: the context user state, the updated
local storage, and the route navigated to. -/
structure LoginResult where
  user : UserState
  store : SessionStore
  navTarget : Route

/-- `handleLogin` of the `Login` component: build
`{ name: username, isLoggedIn: true }` from the entered username (no
password check, no failure branch), set it as the user state, persist it
under the `userSession` key, and navigate (admin usernames go to the
add-product page). -/
def handleLogin (username : String) (store : SessionStore) : LoginResult :=
  let userData : UserState := { name := username, isLoggedIn := true }
  { user := userData,
    store := setItem store "userSession" userData,
    navTarget := if lowerChars userData.name = lowerChars "admin" then .addProduct else .home }

/-! ### Helper lemmas -/

/-- A successful `findIndex` yields an in-bounds index whose element
satisfies the predicate. -/
theorem findIdxQ_some_spec {α : Type} {p : α → Bool} {l : List α} {i : Nat}
    (h : l.findIdx? p = some i) :
    ∃ hi : i < l.length, p (l.get ⟨i, hi⟩) = true := by
  rw [List.findIdx?_eq_some_iff_findIdx_eq] at h
  obtain ⟨hlt, hidx⟩ := h
  subst hidx
  exact ⟨hlt, List.findIdx_getElem⟩

/-- Summing a projection after an in-place update at index `i` adjusts the
sum by the change at that element. -/
theorem sum_map_modify {α M : Type} [AddCommGroup M] (g : α → M) (f : α → α) :
    ∀ (l : List α) (i : Nat) (hi : i < l.length),
      ((l.modify f i).map g).sum = (l.map g).sum - g (l.get ⟨i, hi⟩) + g (f (l.get ⟨i, hi⟩))
  | a :: l, 0, _ => by
    simp [List.modify]
    abel
  | a :: l, i + 1, hi => by
    have ih := sum_map_modify g f l i (by simpa using hi)
    simp only [List.modify, List.modifyTailIdx, List.get_cons_succ, List.map_cons,
      List.sum_cons] at ih ⊢
    rw [ih]
    abel

/-- Summing a projection after removing the element at index `i` subtracts
that element's contribution. -/
theorem sum_map_eraseIdx {α M : Type} [AddCommGroup M] (g : α → M) :
    ∀ (l : List α) (i : Nat) (hi : i < l.length),
      ((l.eraseIdx i).map g).sum = (l.map g).sum - g (l.get ⟨i, hi⟩)
  | a :: l, 0, _ => by
    simp
  | a :: l, i + 1, hi => by
    have ih := sum_map_eraseIdx g l i (by simpa using hi)
    simp [List.eraseIdx_cons_succ, ih]
    abel

/-- Membership after an in-bounds in-place update: every element was
already present or is the image of a present element. -/
theorem mem_modify {α : Type} {f : α → α} :
    ∀ {l : List α} {i : Nat} {a : α}, i < l.length → a ∈ l.modify f i →
      a ∈ l ∨ ∃ b ∈ l, a = f b
  | x :: l, 0, a, _, h => by
    rw [show (x :: l).modify f 0 = f x :: l by simp [List.modify], List.mem_cons] at h
    rcases h with h | h
    · exact Or.inr ⟨x, List.mem_cons_self x l, h⟩
    · exact Or.inl (List.mem_cons_of_mem x h)
  | x :: l, i + 1, a, hi, h => by
    rw [show (x :: l).modify f (i + 1) = x :: l.modify f i by simp [List.modify],
      List.mem_cons] at h
    rcases h with h | h
    · exact Or.inl (h ▸ List.mem_cons_self x l)
    · rcases mem_modify (by simpa using hi) h with h | ⟨b, hb, hab⟩
      · exact Or.inl (List.mem_cons_of_mem x h)
      · exact Or.inr ⟨b, List.mem_cons_of_mem x hb, hab⟩

/-- A left fold accumulating `+ g x` computes the sum of the mapped list. -/
theorem foldl_add_eq_sum {α M : Type} [AddCommMonoid M] (g : α → M) :
    ∀ (l : List α) (a : M), l.foldl (fun t x => t + g x) a = a + (l.map g).sum
  | [], a => by simp
  | x :: l, a => by
    simp [foldl_add_eq_sum g l (a + g x), add_assoc]

/-- `calculateTotal` computes the sum over the cart's items of
`price × quantity`. -/
theorem calculateTotal_eq_itemsPriceSum (cartItems : List CartItem) :
    calculateTotal cartItems = itemsPriceSum cartItems := by
  simp [calculateTotal, itemsPriceSum, foldl_add_eq_sum]

/-- The initial empty cart satisfies the arithmetic invariant. -/
theorem initialState_invariant : cartInvariant initialState := by
  constructor <;> simp [initialState, itemsQuantitySum, itemsPriceSum]

/-- The initial empty cart vacuously satisfies any pricing discipline. -/
theorem initialState_pricedBy (priceOf : Int → ℚ) : itemsPricedBy priceOf initialState := by
  intro item hitem
  simp [initialState] at hitem

/-- `addToCart` preserves the invariant together with price consistency,
provided the payload's price is the one assigned to its id. -/
theorem addToCart_preserves (priceOf : Int → ℚ) (s : CartState) (p : Product)
    (hinv : cartInvariant s) (hpr : itemsPricedBy priceOf s) (hp : p.price = priceOf p.id) :
    cartInvariant (addToCart s p) ∧ itemsPricedBy priceOf (addToCart s p) := by
  obtain ⟨hti, htp⟩ := hinv
  cases hfind : s.items.findIdx? (fun item => item.id == p.id) with
  | none =>
    refine ⟨⟨?_, ?_⟩, ?_⟩
    · simp [addToCart, hfind, itemsQuantitySum, mkCartItem, hti]
    · simp [addToCart, hfind, itemsPriceSum, mkCartItem, htp]
    · intro item hitem
      simp only [addToCart, hfind, List.mem_append, List.mem_singleton] at hitem
      rcases hitem with h | h
      · exact hpr item h
      · subst h
        simpa [mkCartItem] using hp
  | some i =>
    obtain ⟨hi, hpred⟩ := findIdxQ_some_spec hfind
    have hid : (s.items.get ⟨i, hi⟩).id = p.id := by simpa using hpred
    have hxprice : (s.items.get ⟨i, hi⟩).price = p.price := by
      rw [hpr (s.items.get ⟨i, hi⟩) (List.get_mem s.items i hi), hid, hp]
    refine ⟨⟨?_, ?_⟩, ?_⟩
    · simp only [addToCart, hfind, itemsQuantitySum] at hti ⊢
      rw [sum_map_modify (fun item => item.quantity) incrementQuantity s.items i hi]
      simp [incrementQuantity, hti]
      ring
    · simp only [addToCart, hfind, itemsPriceSum] at htp ⊢
      rw [sum_map_modify (fun item => item.price * (item.quantity : ℚ))
        incrementQuantity s.items i hi]
      simp only [incrementQuantity]
      rw [htp, ← hxprice]
      push_cast
      ring
    · intro item hitem
      simp only [addToCart, hfind] at hitem
      rcases mem_modify hi hitem with h | ⟨b, hb, hab⟩
      · exact hpr item h
      · subst hab
        simpa [incrementQuantity] using hpr b hb

/-- `removeFromCart` preserves the invariant together with price
consistency. -/
theorem removeFromCart_preserves (priceOf : Int → ℚ) (s : CartState) (itemId : Int)
    (hinv : cartInvariant s) (hpr : itemsPricedBy priceOf s) :
    cartInvariant (removeFromCart s itemId) ∧ itemsPricedBy priceOf (removeFromCart s itemId) := by
  obtain ⟨hti, htp⟩ := hinv
  cases hfind : s.items.findIdx? (fun item => item.id == itemId) with
  | none =>
    constructor
    · simpa [removeFromCart, hfind] using And.intro hti htp
    · simpa [removeFromCart, hfind] using hpr
  | some i =>
    obtain ⟨hi, _⟩ := findIdxQ_some_spec hfind
    have hget : s.items[i]? = some (s.items.get ⟨i, hi⟩) := List.getElem?_eq_getElem hi
    refine ⟨⟨?_, ?_⟩, ?_⟩
    · simp only [removeFromCart, hfind, hget, itemsQuantitySum] at hti ⊢
      rw [sum_map_eraseIdx (fun item => item.quantity) s.items i hi]
      simp [hti]
    · simp only [removeFromCart, hfind, hget, itemsPriceSum] at htp ⊢
      rw [sum_map_eraseIdx (fun item => item.price * (item.quantity : ℚ)) s.items i hi]
      simp [htp]
    · intro item hitem
      simp only [removeFromCart, hfind, hget] at hitem
      exact hpr item (List.mem_of_mem_eraseIdx hitem)

/-- `updateQuantity` preserves the invariant together with price
consistency. -/
theorem updateQuantity_preserves (priceOf : Int → ℚ) (s : CartState) (itemId quantity : Int)
    (hinv : cartInvariant s) (hpr : itemsPricedBy priceOf s) :
    cartInvariant (updateQuantity s itemId quantity) ∧
      itemsPricedBy priceOf (updateQuantity s itemId quantity) := by
  obtain ⟨hti, htp⟩ := hinv
  cases hfind : s.items.findIdx? (fun item => item.id == itemId) with
  | none =>
    constructor
    · simpa [updateQuantity, hfind] using And.intro hti htp
    · simpa [updateQuantity, hfind] using hpr
  | some i =>
    obtain ⟨hi, _⟩ := findIdxQ_some_spec hfind
    have hget : s.items[i]? = some (s.items.get ⟨i, hi⟩) := List.getElem?_eq_getElem hi
    by_cases hq : quantity > 0
    · refine ⟨⟨?_, ?_⟩, ?_⟩
      · simp only [updateQuantity, hfind, hget, if_pos hq, itemsQuantitySum] at hti ⊢
        rw [sum_map_modify (fun item => item.quantity)
          (fun item => { item with quantity := quantity }) s.items i hi]
        simp [hti]
        ring
      · simp only [updateQuantity, hfind, hget, if_pos hq, itemsPriceSum] at htp ⊢
        rw [sum_map_modify (fun item => item.price * (item.quantity : ℚ))
          (fun item => { item with quantity := quantity }) s.items i hi]
        rw [htp]
        push_cast
        ring
      · intro item hitem
        simp only [updateQuantity, hfind, hget, if_pos hq] at hitem
        rcases mem_modify hi hitem with h | ⟨b, hb, hab⟩
        · exact hpr item h
        · subst hab
          simpa using hpr b hb
    · constructor
      · simpa [updateQuantity, hfind, hget, if_neg hq] using And.intro hti htp
      · simpa [updateQuantity, hfind, hget, if_neg hq] using hpr

/-- One reducer step preserves the invariant together with price
consistency, for payloads priced by `priceOf`. -/
theorem cartReduce_preserves (priceOf : Int → ℚ) (s : CartState) (a : CartAction)
    (hs : cartInvariant s ∧ itemsPricedBy priceOf s) (ha : pricedBy priceOf a) :
    cartInvariant (cartReduce s a) ∧ itemsPricedBy priceOf (cartReduce s a) := by
  cases a with
  | add p => exact addToCart_preserves priceOf s p hs.1 hs.2 (ha p rfl)
  | remove itemId => exact removeFromCart_preserves priceOf s itemId hs.1 hs.2
  | update itemId quantity => exact updateQuantity_preserves priceOf s itemId quantity hs.1 hs.2
  | clear =>
    constructor
    · constructor <;> simp [cartReduce, clearCart, itemsQuantitySum, itemsPriceSum]
    · intro item hitem
      simp [cartReduce, clearCart] at hitem

/-- Folding any priced action sequence preserves the invariant together
with price consistency. -/
theorem foldl_cartReduce_preserves (priceOf : Int → ℚ) :
    ∀ (actions : List CartAction) (s : CartState),
      cartInvariant s ∧ itemsPricedBy priceOf s →
      (∀ a ∈ actions, pricedBy priceOf a) →
      cartInvariant (actions.foldl cartReduce s) ∧
        itemsPricedBy priceOf (actions.foldl cartReduce s)
  | [], _, hs, _ => hs
  | a :: actions, s, hs, hacts =>
    foldl_cartReduce_preserves priceOf actions (cartReduce s a)
      (cartReduce_preserves priceOf s a hs (hacts a (List.mem_cons_self a actions)))
      (fun b hb => hacts b (List.mem_cons_of_mem a hb))

/-! ### Sample data for witnesses and counterexamples -/

/-- Sample product: id 1, price 2. -/
def productA : Product :=
  { id := 1, title := "A", price := 2, description := "", category := "", image := "",
    rating := { rate := 0, count := 0 } }

/-- Sample product with the same id 1 but a different price 5. -/
def productB : Product :=
  { id := 1, title := "A", price := 5, description := "", category := "", image := "",
    rating := { rate := 0, count := 0 } }

/-- Sample cart state holding two units of `productA`. -/
def sampleState : CartState :=
  { items := [mkCartItem productA 2], totalItems := 2, totalPrice := 4 }

/-! ### C1: reachable cart states satisfy the arithmetic invariant -/

/-- C1 (amended): every cart state reachable from the initial empty cart
by dispatching addToCart, removeFromCart, updateQuantity and clearCart
satisfies the arithmetic-consistency invariant (totalPrice = Σ price ×
quantity, totalItems = Σ quantity), provided the add payloads price each
product id consistently (prices are a function of the id, as for products
fetched from the catalog). -/
theorem cart_reachable_states_satisfy_invariant (priceOf : Int → ℚ)
    (actions : List CartAction) (h : ∀ a ∈ actions, pricedBy priceOf a) :
    cartInvariant (runActions actions) :=
  (foldl_cartReduce_preserves priceOf actions initialState
    ⟨initialState_invariant, initialState_pricedBy priceOf⟩ h).1

/-- C1 witness: a concrete one-add action sequence is consistently priced
and the resulting state satisfies the invariant. -/
theorem cart_reachable_states_satisfy_invariant_witness :
    (∀ a ∈ [CartAction.add productA], pricedBy (fun _ => (2 : ℚ)) a) ∧
      cartInvariant (runActions [CartAction.add productA]) := by
  have h : ∀ a ∈ [CartAction.add productA], pricedBy (fun _ => (2 : ℚ)) a := by
    intro a ha p hp
    rw [List.mem_singleton] at ha
    subst ha
    injection hp with h2
    subst h2
    norm_num [productA]
  exact ⟨h, cart_reachable_states_satisfy_invariant (fun _ => 2) _ h⟩

/-- C1 counterexample: with arbitrary payloads the invariant is violated.
Adding id 1 at price 2 and then id 1 at price 5 yields totalPrice 7 while
the items sum to price 2 × quantity 2 = 4: `addToCart` adds the payload's
price to `totalPrice` but increments the stored item's quantity. -/
theorem cart_invariant_fails_for_arbitrary_payloads :
    ¬ cartInvariant (runActions [CartAction.add productA, CartAction.add productB]) := by
  intro hinv
  have htp := hinv.2
  norm_num [runActions, cartReduce, addToCart, initialState, mkCartItem, cartInvariant,
    itemsPriceSum, productA, productB, incrementQuantity, List.modify,
    List.findIdx?_cons] at htp

/-! ### C4: addToCart behaviour on every state and payload -/

/-- C4: for every cart state and product payload, `addToCart` bumps
totalItems by exactly 1 and totalPrice by exactly the payload's price;
when the payload's id is already present (at first index `i`) it
increments that item's quantity by 1, keeping the length and every other
item unchanged, and otherwise it appends the payload with quantity 1. -/
theorem addToCart_spec (s : CartState) (p : Product) :
    (addToCart s p).totalItems = s.totalItems + 1 ∧
    (addToCart s p).totalPrice = s.totalPrice + p.price ∧
    ((∃ i, s.items.findIdx? (fun item => item.id == p.id) = some i ∧
        (addToCart s p).items.length = s.items.length ∧
        (addToCart s p).items[i]? = (s.items[i]?).map incrementQuantity ∧
        ∀ j, j ≠ i → (addToCart s p).items[j]? = s.items[j]?) ∨
      (s.items.findIdx? (fun item => item.id == p.id) = none ∧
        (addToCart s p).items = s.items ++ [mkCartItem p 1])) := by
  refine ⟨by simp [addToCart], by simp [addToCart], ?_⟩
  cases hfind : s.items.findIdx? (fun item => item.id == p.id) with
  | none =>
    right
    exact ⟨rfl, by simp [addToCart, hfind]⟩
  | some i =>
    left
    obtain ⟨hi, _⟩ := findIdxQ_some_spec hfind
    refine ⟨i, rfl, ?_, ?_, ?_⟩
    · simp [addToCart, hfind, List.length_modify]
    · simp [addToCart, hfind, List.getElem?_modify, List.getElem?_eq_getElem hi,
        Option.map_some]
    · intro j hj
      simp [addToCart, hfind, List.getElem?_modify, Ne.symm hj]

/-- C4 witness: the specification instantiated at a concrete state and
payload. -/
theorem addToCart_spec_witness :
    (addToCart sampleState productB).totalItems = sampleState.totalItems + 1 ∧
    (addToCart sampleState productB).totalPrice = sampleState.totalPrice + productB.price ∧
    ((∃ i, sampleState.items.findIdx? (fun item => item.id == productB.id) = some i ∧
        (addToCart sampleState productB).items.length = sampleState.items.length ∧
        (addToCart sampleState productB).items[i]?
          = (sampleState.items[i]?).map incrementQuantity ∧
        ∀ j, j ≠ i → (addToCart sampleState productB).items[j]? = sampleState.items[j]?) ∨
      (sampleState.items.findIdx? (fun item => item.id == productB.id) = none ∧
        (addToCart sampleState productB).items
          = sampleState.items ++ [mkCartItem productB 1])) :=
  addToCart_spec sampleState productB

/-! ### C5: removeFromCart frame and effect -/

/-- C5: when no cart item has the requested id, `removeFromCart` leaves the
whole state unchanged; when some item has it, the first such index is
found, exactly that item is spliced out (the prefix before it and the
suffix after it survive in order), totalItems drops by its quantity and
totalPrice by its price × quantity. -/
theorem removeFromCart_spec (s : CartState) (itemId : Int) :
    ((∀ item ∈ s.items, item.id ≠ itemId) → removeFromCart s itemId = s) ∧
    ((∃ item ∈ s.items, item.id = itemId) →
      ∃ i, s.items.findIdx? (fun item => item.id == itemId) = some i) ∧
    (∀ i, s.items.findIdx? (fun item => item.id == itemId) = some i →
      ∃ hi : i < s.items.length,
        (s.items.get ⟨i, hi⟩).id = itemId ∧
        (removeFromCart s itemId).items = s.items.take i ++ s.items.drop (i + 1) ∧
        (removeFromCart s itemId).totalItems
          = s.totalItems - (s.items.get ⟨i, hi⟩).quantity ∧
        (removeFromCart s itemId).totalPrice
          = s.totalPrice
              - (s.items.get ⟨i, hi⟩).price * ((s.items.get ⟨i, hi⟩).quantity : ℚ)) := by
  refine ⟨?_, ?_, ?_⟩
  · intro h
    have hfind : s.items.findIdx? (fun item => item.id == itemId) = none := by
      rw [List.findIdx?_eq_none_iff]
      intro x hx
      simpa using h x hx
    simp [removeFromCart, hfind]
  · rintro ⟨item, hmem, hid⟩
    cases hfind : s.items.findIdx? (fun item => item.id == itemId) with
    | none =>
      rw [List.findIdx?_eq_none_iff] at hfind
      have := hfind item hmem
      simp [hid] at this
    | some i => exact ⟨i, rfl⟩
  · intro i hfind
    obtain ⟨hi, hpred⟩ := findIdxQ_some_spec hfind
    have hget : s.items[i]? = some (s.items.get ⟨i, hi⟩) := List.getElem?_eq_getElem hi
    refine ⟨hi, by simpa using hpred, ?_, ?_, ?_⟩
    · simp [removeFromCart, hfind, hget, List.eraseIdx_eq_take_drop_succ]
    · simp [removeFromCart, hfind, hget]
    · simp [removeFromCart, hfind, hget]

/-- C5 witness: the specification instantiated at a concrete state for
both a missing id (3) and, on the sample state, the present id 1. -/
theorem removeFromCart_spec_witness :
    ((∀ item ∈ sampleState.items, item.id ≠ 3) → removeFromCart sampleState 3 = sampleState) ∧
      ((∀ item ∈ sampleState.items, item.id ≠ 3) ∧
        removeFromCart sampleState 3 = sampleState) := by
  have h3 : ∀ item ∈ sampleState.items, item.id ≠ 3 := by
    intro item hitem
    rw [sampleState, List.mem_singleton] at hitem
    subst hitem
    norm_num [mkCartItem, productA]
  exact ⟨(removeFromCart_spec sampleState 3).1, h3, (removeFromCart_spec sampleState 3).1 h3⟩

/-! ### C9: updateQuantity rejects non-positive quantities and unknown ids -/

/-- C9: dispatching updateQuantity with a non-positive quantity or an id
not present in the cart leaves the whole cart state unchanged; in
particular quantity 0 does not remove the item. -/
theorem updateQuantity_noop (s : CartState) (itemId quantity : Int)
    (h : quantity ≤ 0 ∨ ∀ item ∈ s.items, item.id ≠ itemId) :
    updateQuantity s itemId quantity = s := by
  rcases h with hq | hid
  · cases hfind : s.items.findIdx? (fun item => item.id == itemId) with
    | none => simp [updateQuantity, hfind]
    | some i =>
      cases hget : s.items[i]? with
      | none => simp [updateQuantity, hfind, hget]
      | some item =>
        have : ¬ quantity > 0 := by omega
        simp [updateQuantity, hfind, hget, this]
  · have hfind : s.items.findIdx? (fun item => item.id == itemId) = none := by
      rw [List.findIdx?_eq_none_iff]
      intro x hx
      simpa using hid x hx
    simp [updateQuantity, hfind]

/-- C9 witness: updating the sample item's quantity to 0 changes nothing. -/
theorem updateQuantity_noop_witness :
    ((0 : Int) ≤ 0 ∨ ∀ item ∈ sampleState.items, item.id ≠ 1) ∧
      updateQuantity sampleState 1 0 = sampleState :=
  ⟨Or.inl le_rfl, updateQuantity_noop sampleState 1 0 (Or.inl le_rfl)⟩

/-! ### C10: add then remove round trip -/

/-- C10: if the cart contains no item with the payload's id, dispatching
addToCart with that payload and then removeFromCart with its id returns
the cart state exactly to its previous value. -/
theorem add_then_remove_roundtrip (s : CartState) (p : Product)
    (h : ∀ item ∈ s.items, item.id ≠ p.id) :
    removeFromCart (addToCart s p) p.id = s := by
  have hfind : s.items.findIdx? (fun item => item.id == p.id) = none := by
    rw [List.findIdx?_eq_none_iff]
    intro x hx
    simpa using h x hx
  have hadd : addToCart s p =
      { items := s.items ++ [mkCartItem p 1], totalItems := s.totalItems + 1,
        totalPrice := s.totalPrice + p.price } := by
    simp [addToCart, hfind]
  have hfind2 : (s.items ++ [mkCartItem p 1]).findIdx? (fun item => item.id == p.id)
      = some s.items.length := by
    rw [List.findIdx?_append, hfind]
    simp [mkCartItem, List.findIdx?_cons]
  have hget : (s.items ++ [mkCartItem p 1])[s.items.length]? = some (mkCartItem p 1) := by
    rw [List.getElem?_eq_getElem (by simp)]
    rw [List.getElem_concat_length s.items (mkCartItem p 1) s.items.length rfl]
  rw [hadd]
  cases s with
  | mk items totalItems totalPrice =>
    simp only [removeFromCart, hfind2, hget] at *
    simp only [CartState.mk.injEq]
    refine ⟨?_, ?_, ?_⟩
    · rw [List.eraseIdx_append_of_length_le le_rfl]
      simp
    · simp [mkCartItem]
    · simp [mkCartItem]

/-- C10 witness: adding product id 1 to the empty cart and removing it
again restores the initial state. -/
theorem add_then_remove_roundtrip_witness :
    (∀ item ∈ initialState.items, item.id ≠ productA.id) ∧
      removeFromCart (addToCart initialState productA) productA.id = initialState := by
  have h : ∀ item ∈ initialState.items, item.id ≠ productA.id := by
    intro item hitem
    simp [initialState] at hitem
  exact ⟨h, add_then_remove_roundtrip initialState productA h⟩

/-! ### C2: simulated checkout -/

/-- C2: for a non-empty cart, `handleCheckout` appends exactly one new
order to the stored order history — its total is the sum over the cart's
items of price × quantity and its line items are exactly the cart's items
as (productId, quantity, price) — leaving every previously stored order
unchanged, and clears the cart to the empty initial state; for an empty
cart no order is written and the cart state is unchanged. -/
theorem handleCheckout_spec (s : CartState) (storedOrders : List Order)
    (orderId orderDate : String) :
    (s.items ≠ [] →
      (handleCheckout s storedOrders orderId orderDate).orders
        = storedOrders ++
            [{ id := orderId, date := orderDate,
               items := s.items.map (fun item =>
                 OrderLineItem.mk (toString item.id) item.quantity item.price),
               totalAmount := itemsPriceSum s.items,
               orderId := some orderId, dateCreated := some orderDate,
               totalPrice := some (itemsPriceSum s.items) }] ∧
      (handleCheckout s storedOrders orderId orderDate).cart = initialState) ∧
    (s.items = [] →
      handleCheckout s storedOrders orderId orderDate
        = { orders := storedOrders, cart := s }) := by
  constructor
  · intro h
    have hlen : s.items.length > 0 := List.length_pos.mpr h
    constructor
    · simp [handleCheckout, if_pos hlen, saveOrderToLocalStorage,
        calculateTotal_eq_itemsPriceSum]
    · simp [handleCheckout, if_pos hlen, clearCart, initialState]
  · intro h
    simp [handleCheckout, h]

/-- C2 witness: checkout of a concrete one-item cart appends exactly the
expected order and resets the cart; checkout of the empty cart is a
no-op. -/
theorem handleCheckout_spec_witness :
    sampleState.items ≠ [] ∧
    ((handleCheckout sampleState [] "ORD-1" "2026-01-01").orders
        = [] ++
            [{ id := "ORD-1", date := "2026-01-01",
               items := sampleState.items.map (fun item =>
                 OrderLineItem.mk (toString item.id) item.quantity item.price),
               totalAmount := itemsPriceSum sampleState.items,
               orderId := some "ORD-1", dateCreated := some "2026-01-01",
               totalPrice := some (itemsPriceSum sampleState.items) }] ∧
      (handleCheckout sampleState [] "ORD-1" "2026-01-01").cart = initialState) ∧
    initialState.items = [] ∧
    handleCheckout initialState [] "ORD-1" "2026-01-01"
      = { orders := [], cart := initialState } := by
  have h1 : sampleState.items ≠ [] := by simp [sampleState]
  have h2 : initialState.items = [] := rfl
  exact ⟨h1, (handleCheckout_spec sampleState [] "ORD-1" "2026-01-01").1 h1, h2,
    (handleCheckout_spec initialState [] "ORD-1" "2026-01-01").2 h2⟩

/-! ### C6: catalog sort (failing input for the rating option) -/

/-- Product rated 1. -/
def lowRated : Product :=
  { id := 1, title := "L", price := 1, description := "", category := "", image := "",
    rating := { rate := 1, count := 10 } }

/-- Product rated 5. -/
def highRated : Product :=
  { id := 2, title := "H", price := 1, description := "", category := "", image := "",
    rating := { rate := 5, count := 10 } }

/-- C6 failing input: with the `rating` option the comparator is
`b.rating.rate - b.rating.rate` (always 0), so the stable sort leaves
`[rate 1, rate 5]` in fetched order, which is not non-increasing in
`rating.rate`. -/
theorem rating_sort_leaves_input_unsorted :
    sortedProducts [lowRated, highRated] SortOption.rating = [lowRated, highRated] ∧
    ¬ highRated.rating.rate ≤ lowRated.rating.rate := by
  constructor
  · rw [show sortedProducts [lowRated, highRated] SortOption.rating
        = List.mergeSort [lowRated, highRated]
            (fun _ b => decide (b.rating.rate - b.rating.rate ≤ 0)) from rfl]
    apply List.mergeSort_of_sorted
    simp
  · norm_num [lowRated, highRated]

/-! ### C8: simulated login -/

/-- C8: for every username string (including the empty string) the login
submit sets the user state to exactly `{ name, isLoggedIn: true }` and
persists that same object under the `userSession` key, leaving every
other key untouched; no input is rejected (the function is total and has
no failure branch). -/
theorem handleLogin_spec (username : String) (store : SessionStore) :
    (handleLogin username store).user = { name := username, isLoggedIn := true } ∧
    (handleLogin username store).store "userSession"
      = some { name := username, isLoggedIn := true } ∧
    (∀ key, key ≠ "userSession" → (handleLogin username store).store key = store key) := by
  refine ⟨rfl, ?_, ?_⟩
  · simp [handleLogin, setItem]
  · intro key hkey
    simp [handleLogin, setItem, hkey]

/-- Store with no persisted keys. -/
def emptyStore : SessionStore := fun _ => none

/-- C8 witness: the empty username is accepted, stored under `userSession`,
and an unrelated key is untouched. -/
theorem handleLogin_spec_witness :
    (handleLogin "" emptyStore).user = { name := "", isLoggedIn := true } ∧
    (handleLogin "" emptyStore).store "userSession"
      = some { name := "", isLoggedIn := true } ∧
    ("orderHistory" : String) ≠ "userSession" ∧
    (handleLogin "" emptyStore).store "orderHistory" = emptyStore "orderHistory" := by
  have h := handleLogin_spec "" emptyStore
  have hne : ("orderHistory" : String) ≠ "userSession" := by decide
  exact ⟨h.1, h.2.1, hne, h.2.2 "orderHistory" hne⟩

/-! ### C3: malformed browser-storage JSON -/

/-- C3 (amended): on malformed JSON, the `userSession` read of the Login
effect catches the parse error and deletes the corrupted key; the
`orderHistory` helper read and the `shoppingCart` session read catch the
error and return the empty array but do not delete the key; the
`OrderHistory` component's own `orderHistory` read and the
`productCategories` read have no catch, so the parse error propagates. -/
theorem malformed_storage_reads (s : String)
    (parseOrders : ParseFn (List Order)) (parseCats : ParseFn (List String))
    (parseUser : ParseFn UserState) (parseCart : ParseFn (List CartItem))
    (hO : parseOrders s = none) (hC : parseCats s = none)
    (hU : parseUser s = none) (hK : parseCart s = none) :
    loginRestoreSession (some s) parseUser
      = { result := .ok none, keyRemoved := true } ∧
    getOrdersFromLocalStorage (some s) parseOrders
      = { result := .ok [], keyRemoved := false } ∧
    getCartFromSessionStorage (some s) parseCart
      = { result := .ok [], keyRemoved := false } ∧
    orderHistoryGetOrders (some s) parseOrders
      = { result := .error (), keyRemoved := false } ∧
    getCategoriesFromLocalStorage (some s) parseCats
      = { result := .error (), keyRemoved := false } := by
  simp [loginRestoreSession, getOrdersFromLocalStorage, getCartFromSessionStorage,
    orderHistoryGetOrders, getCategoriesFromLocalStorage, hO, hC, hU, hK]

/-- C3 witness: the amended behaviour at a concrete malformed string and a
parse oracle that rejects it. -/
theorem malformed_storage_reads_witness :
    ((fun _ => none : ParseFn (List Order)) "not json" = none) ∧
    (loginRestoreSession (some "not json") (fun _ => none)
        = { result := .ok none, keyRemoved := true } ∧
      getOrdersFromLocalStorage (some "not json") (fun _ => none)
        = { result := .ok [], keyRemoved := false } ∧
      getCartFromSessionStorage (some "not json") (fun _ => none)
        = { result := .ok [], keyRemoved := false } ∧
      orderHistoryGetOrders (some "not json") (fun _ => none)
        = { result := .error (), keyRemoved := false } ∧
      getCategoriesFromLocalStorage (some "not json") (fun _ => none)
        = { result := .error (), keyRemoved := false }) :=
  ⟨rfl, malformed_storage_reads "not json" (fun _ => none) (fun _ => none) (fun _ => none)
    (fun _ => none) rfl rfl rfl rfl⟩

/-- C3 counterexample: the `productCategories` read applied to a malformed
stored string propagates the parse error and does not delete the key,
contradicting the claim that for every persisted key the error is caught,
the key deleted, and the default returned. -/
theorem malformed_categories_read_throws :
    (getCategoriesFromLocalStorage (some "not json") (fun _ => none)).result = .error () ∧
    (getCategoriesFromLocalStorage (some "not json") (fun _ => none)).keyRemoved = false := by
  constructor <;> rfl

/-! ### C7: catalog filter -/

/-- A non-empty character list is not contained in the empty list. -/
theorem no_substring_of_nil {l : List Char} (h : l ≠ []) : ¬ l <:+: ([] : List Char) := by
  rintro ⟨s, t, hst⟩
  simp only [List.append_eq_nil] at hst
  exact h hst.1.2

/-- Lowercasing yields no characters exactly for the empty string. -/
theorem lowerChars_eq_nil_iff {s : String} : lowerChars s = [] ↔ s = "" := by
  constructor
  · intro h
    cases s with
    | mk data =>
      rw [lowerChars] at h
      simp only [List.map_eq_nil_iff] at h
      subst h
      rfl
  · rintro rfl
    rfl

/-- With a non-empty query, the source's truthiness guards on title and
description do not change the match predicate: an empty field never
contains a non-empty query anyway. -/
theorem matchPred_eq {q : String} (hq : q ≠ "") (x : Product) :
    ((x.title != "" && decide (lowerChars q <:+: lowerChars x.title)) ||
      (x.description != "" && decide (lowerChars q <:+: lowerChars x.description)))
      = (decide (lowerChars q <:+: lowerChars x.title) ||
          decide (lowerChars q <:+: lowerChars x.description)) := by
  have hqn : lowerChars q ≠ [] := fun hcon => hq (lowerChars_eq_nil_iff.mp hcon)
  have hnil : ¬ lowerChars q <:+: ([] : List Char) := no_substring_of_nil hqn
  rw [Bool.eq_iff_iff]
  by_cases ht : x.title = "" <;> by_cases hd : x.description = "" <;>
    simp [ht, hd, show lowerChars "" = [] from rfl, hnil]

/-- C7: the catalog filter keeps exactly the products selected by the
claim's predicate (category equality when a category other than `'all'`
or the empty string is selected, case-insensitive query containment in
title or description when the query is non-empty), in their original
relative order, and with no category and empty query it returns the input
unchanged. -/
theorem filteredProducts_spec (sorted : List Product) (searchQuery selectedCategory : String) :
    filteredProducts sorted searchQuery selectedCategory
      = sorted.filter (keepsProduct searchQuery selectedCategory) ∧
    filteredProducts sorted "" "" = sorted := by
  constructor
  · by_cases hc : selectedCategory ≠ "" ∧ selectedCategory ≠ "all"
    · have hc1 : (selectedCategory == "") = false := by simpa using hc.1
      have hc2 : (selectedCategory == "all") = false := by simpa using hc.2
      by_cases hq : searchQuery = ""
      · subst hq
        have hl : filteredProducts sorted "" selectedCategory
            = sorted.filter (fun product => product.category == selectedCategory) := by
          simp [filteredProducts, hc]
        rw [hl]
        apply List.filter_congr
        intro x _
        rw [Bool.eq_iff_iff]
        simp [keepsProduct, hc1, hc2]
      · have hl : filteredProducts sorted searchQuery selectedCategory
            = (sorted.filter (fun product => product.category == selectedCategory)).filter
                (fun product =>
                  (product.title != ""
                      && decide (lowerChars searchQuery <:+: lowerChars product.title)) ||
                  (product.description != ""
                      && decide (lowerChars searchQuery <:+: lowerChars product.description))) := by
          simp [filteredProducts, hc, hq]
        rw [hl, List.filter_filter]
        apply List.filter_congr
        intro x _
        rw [Bool.eq_iff_iff]
        rw [matchPred_eq hq x]
        simp only [Bool.and_eq_true, Bool.or_eq_true, decide_eq_true_eq, beq_iff_eq,
          keepsProduct, hc1, hc2, hq]
        simp [hq]
        tauto
    · have hcor : selectedCategory = "" ∨ selectedCategory = "all" := by
        by_cases h1 : selectedCategory = ""
        · exact Or.inl h1
        · right
          by_contra h2
          exact hc ⟨h1, h2⟩
      by_cases hq : searchQuery = ""
      · subst hq
        have hl : filteredProducts sorted "" selectedCategory = sorted := by
          simp [filteredProducts, hc]
        rw [hl, Eq.comm, List.filter_eq_self]
        intro x _
        rcases hcor with h | h <;> simp [keepsProduct, h]
      · have hl : filteredProducts sorted searchQuery selectedCategory
            = sorted.filter
                (fun product =>
                  (product.title != ""
                      && decide (lowerChars searchQuery <:+: lowerChars product.title)) ||
                  (product.description != ""
                      && decide (lowerChars searchQuery <:+: lowerChars product.description))) := by
          simp [filteredProducts, hc, hq]
        rw [hl]
        apply List.filter_congr
        intro x _
        rw [Bool.eq_iff_iff]
        rw [matchPred_eq hq x]
        rcases hcor with h | h <;> simp [keepsProduct, h, hq]
  · simp [filteredProducts]

end Storefront
